import Mathlib

/-!
Verification development for the `myredis` single-threaded key-value server
(`src/server.cpp`, `src/avl.h`).

The embedding mirrors the C++ source.  Byte strings (`std::string`,
`std::vector of uint8_t`) are lists of `Nat` (each entry a byte value).
Machine integers are `Nat`/`Int` with explicit `% 2^32` at the places the
source casts to `uint32_t`.  IEEE-754 doubles are modelled symbolically as
`DVal` (NaN, signed infinity, or an exact finite rational; binary rounding
of finite values is not modelled, which no claim here depends on).

The sorted-set engine (`zset.cpp`), the hash table (`hashtable.cpp`) and the
AVL implementation (`avl.cpp`) are declared but not present under `src/`;
the definitions for them below are modelled from the spec (each such
definition carries a doc comment saying so).  Everything else is translated
from `src/server.cpp`.
-/

namespace MyRedis

/-- Binary byte strings: contents of a `std::string` used as raw bytes. -/
abbrev Str := List Nat

/-- Bytes of an ASCII literal, used for command names and error messages. -/
def strBytes (s : String) : Str := s.toList.map Char.toNat

/-- `k_max_msg` from the source: 32 MiB (`32 << 20`). -/
def k_max_msg : Nat := 33554432

/-- `k_max_args` from the source: `200 * 1000`. -/
def k_max_args : Nat := 200000

/-- An IEEE-754 double, modelled symbolically: NaN, a signed infinity, or an
exact finite value.  A finite value is an exact (not necessarily reduced)
rational `num / den` with `den` a positive power of the parsing base
(decimal-to-binary rounding is not modelled). -/
inductive DVal : Type where
  | nan : DVal
  | inf (neg : Bool) : DVal
  | fin (num : Int) (den : Nat) : DVal
deriving DecidableEq

/-- IEEE `<` on doubles: false whenever either operand is NaN;
`-inf < finite < +inf`; finite values compare as the rationals they denote. -/
def dLt : DVal → DVal → Bool
  | DVal.nan, _ => false
  | _, DVal.nan => false
  | DVal.inf a, DVal.inf b => a && !b
  | DVal.inf a, DVal.fin _ _ => a
  | DVal.fin _ _, DVal.inf b => !b
  | DVal.fin n1 d1, DVal.fin n2 d2 => decide (n1 * (d2 : Int) < n2 * (d1 : Int))

/-- IEEE `==` on doubles: false whenever either operand is NaN; finite
values compare as the rationals they denote. -/
def dEq : DVal → DVal → Bool
  | DVal.inf a, DVal.inf b => a == b
  | DVal.fin n1 d1, DVal.fin n2 d2 => decide (n1 * (d2 : Int) = n2 * (d1 : Int))
  | _, _ => false

/-- One serialized item appended to an outgoing buffer.  The source appends
raw bytes; here each append of the serialization helpers is one token, and
`tokLen` gives the number of bytes it stands for. -/
inductive Tok : Type where
  | u8 (v : Nat)
  | u32 (v : Nat)
  | i64 (v : Int)
  | dbl (v : DVal)
  | bytes (s : Str)
deriving DecidableEq

/-- Byte length of one token (`uint8_t` is 1 byte, `uint32_t` 4, `int64_t`
and `double` 8, a raw string its length). -/
def tokLen : Tok → Nat
  | Tok.u8 _ => 1
  | Tok.u32 _ => 4
  | Tok.i64 _ => 8
  | Tok.dbl _ => 8
  | Tok.bytes s => s.length

/-- The outgoing `Buffer` (`std::vector of uint8_t`), at token granularity. -/
abbrev Buffer := List Tok

/-- `out.size()`: total byte length of a buffer. -/
def bufLen : Buffer → Nat
  | [] => 0
  | t :: rest => tokLen t + bufLen rest

/-- `memcpy` of a `uint32_t` at byte offset `pos` of the buffer
(`out_end_arr` / `response_end`).  The write lands on the `u32` token that
starts at that byte offset; zero-length tokens at the offset are skipped;
a write that would fall inside another token leaves the rest unchanged
(never happens in the program). -/
def patchU32 : Buffer → Nat → Nat → Buffer
  | [], _, _ => []
  | t :: rest, pos, v =>
    if pos = 0 then
      match t with
      | Tok.u32 _ => Tok.u32 v :: rest
      | t' => if tokLen t' = 0 then t' :: patchU32 rest 0 v else t' :: rest
    else if pos < tokLen t then t :: rest
    else t :: patchU32 rest (pos - tokLen t) v

/-- `out.resize(n)` for `n` at most the current size: keep the byte prefix of
length `n` (cuts at a token boundary in every use in the program). -/
def takeBytes : Buffer → Nat → Buffer
  | [], _ => []
  | t :: rest, n => if n = 0 then [] else if tokLen t ≤ n then t :: takeBytes rest (n - tokLen t) else []

/-- `out_nil`. -/
def out_nil (out : Buffer) : Buffer := out ++ [Tok.u8 0]

/-- `out_str` (tag 2, `uint32_t` length cast, raw bytes). -/
def out_str (out : Buffer) (s : Str) : Buffer :=
  out ++ [Tok.u8 2, Tok.u32 (s.length % 4294967296), Tok.bytes s]

/-- `out_int` (tag 3, `int64_t`). -/
def out_int (out : Buffer) (v : Int) : Buffer := out ++ [Tok.u8 3, Tok.i64 v]

/-- `out_dbl` (tag 4, `double`). -/
def out_dbl (out : Buffer) (v : DVal) : Buffer := out ++ [Tok.u8 4, Tok.dbl v]

/-- `out_err` (tag 1, `uint32_t` code, `uint32_t` length cast, message). -/
def out_err (out : Buffer) (code : Nat) (m : Str) : Buffer :=
  out ++ [Tok.u8 1, Tok.u32 code, Tok.u32 (m.length % 4294967296), Tok.bytes m]

/-- `out_arr` (tag 5, `uint32_t` count). -/
def out_arr (out : Buffer) (n : Nat) : Buffer := out ++ [Tok.u8 5, Tok.u32 n]

/-- `out_begin_arr`: push the tag, reserve a zero `uint32_t`, return the new
buffer and `ctx = out.size() - 4`, the byte offset of the placeholder. -/
def out_begin_arr (out : Buffer) : Buffer × Nat :=
  (out ++ [Tok.u8 5, Tok.u32 0], bufLen out + 1)

/-- `out_end_arr`: backpatch the element count at `ctx`. -/
def out_end_arr (out : Buffer) (ctx : Nat) (n : Nat) : Buffer := patchU32 out ctx n

/-- `read_u32`: consume 4 little-endian bytes, fail near the end. -/
def read_u32 : List Nat → Option (Nat × List Nat)
  | a :: b :: c :: d :: rest => some (a + 256 * b + 65536 * c + 16777216 * d, rest)
  | _ => none

/-- `read_str`: consume `n` raw bytes, fail if fewer remain. -/
def read_str (n : Nat) (l : List Nat) : Option (Str × List Nat) :=
  if l.length < n then none else some (l.take n, l.drop n)

/-- The `while (out.size() < nstr)` loop of `parse_req`: read the remaining
`n` length-prefixed strings, then require the body to be exhausted
(`data != end` is trailing garbage). -/
def parse_req_loop : Nat → List Nat → Option (List Str)
  | 0, rest => if rest = [] then some [] else none
  | n + 1, rest =>
    match read_u32 rest with
    | none => none
    | some (len, rest1) =>
      match read_str len rest1 with
      | none => none
      | some (s, rest2) =>
        match parse_req_loop n rest2 with
        | none => none
        | some out => some (s :: out)

/-- `parse_req`: `u32 nstr` then `nstr` length-prefixed strings, with the
`k_max_args` safety limit; `none` is the `-1` protocol-error return. -/
def parse_req (body : List Nat) : Option (List Str) :=
  match read_u32 body with
  | none => none
  | some (nstr, rest) => if k_max_args < nstr then none else parse_req_loop nstr rest

/-- C locale `isspace`. -/
def isSpaceB (c : Nat) : Bool := decide (c = 32 ∨ (9 ≤ c ∧ c ≤ 13))

/-- ASCII decimal digit. -/
def isDigitB (c : Nat) : Bool := decide (48 ≤ c ∧ c ≤ 57)

/-- ASCII hexadecimal digit. -/
def isHexB (c : Nat) : Bool :=
  isDigitB c || decide (97 ≤ c ∧ c ≤ 102) || decide (65 ≤ c ∧ c ≤ 70)

/-- Value of a hexadecimal digit. -/
def hexValB (c : Nat) : Nat :=
  if isDigitB c then c - 48 else if 97 ≤ c then c - 87 else c - 55

/-- ASCII lower-casing of one byte. -/
def lowerB (c : Nat) : Nat := if 65 ≤ c ∧ c ≤ 90 then c + 32 else c

/-- Alphanumeric or underscore (the n-char-sequence allowed inside
a parsed NaN payload). -/
def isAlnumU (c : Nat) : Bool :=
  isDigitB c || decide (97 ≤ lowerB c ∧ lowerB c ≤ 122) || decide (c = 95)

/-- Scan a run of decimal digits: accumulated value, digit count, rest. -/
def scanDec : List Nat → Nat → Nat → Nat × Nat × List Nat
  | c :: rest, acc, k =>
    if isDigitB c then scanDec rest (acc * 10 + (c - 48)) (k + 1) else (acc, k, c :: rest)
  | [], acc, k => (acc, k, [])

/-- Scan a run of hexadecimal digits. -/
def scanHex : List Nat → Nat → Nat → Nat × Nat × List Nat
  | c :: rest, acc, k =>
    if isHexB c then scanHex rest (acc * 16 + hexValB c) (k + 1) else (acc, k, c :: rest)
  | [], acc, k => (acc, k, [])

/-- Strip one optional `+`/`-`; `true` means negative. -/
def signSplit : List Nat → Bool × List Nat
  | 43 :: r => (false, r)
  | 45 :: r => (true, r)
  | r => (false, r)

/-- Decimal mantissa `digits [ . digits ]`, requiring at least one digit;
returns the exact value as numerator and denominator (a power of 10),
and the rest. -/
def parseDecMant (l : List Nat) : Option ((Nat × Nat) × List Nat) :=
  match scanDec l 0 0 with
  | (ip, ki, r1) =>
    match r1 with
    | 46 :: r =>
      match scanDec r 0 0 with
      | (fp, kf, r2) =>
        if ki + kf = 0 then none
        else some ((ip * 10 ^ kf + fp, 10 ^ kf), r2)
    | _ => if ki = 0 then none else some ((ip, 1), r1)

/-- Hexadecimal mantissa `hexdigits [ . hexdigits ]`; the denominator is a
power of 16. -/
def parseHexMant (l : List Nat) : Option ((Nat × Nat) × List Nat) :=
  match scanHex l 0 0 with
  | (ip, ki, r1) =>
    match r1 with
    | 46 :: r =>
      match scanHex r 0 0 with
      | (fp, kf, r2) =>
        if ki + kf = 0 then none
        else some ((ip * 16 ^ kf + fp, 16 ^ kf), r2)
    | _ => if ki = 0 then none else some ((ip, 1), r1)

/-- Scale an exact mantissa `n0 / d0` by `base ^ e`, keeping numerator and
denominator exact. -/
def finScaled (base : Nat) (n0 d0 : Nat) (e : Int) : DVal :=
  if 0 ≤ e then DVal.fin (n0 * base ^ e.toNat) d0
  else DVal.fin (n0 : Int) (d0 * base ^ (-e).toNat)

/-- Optional exponent part (`e`/`E` for decimal, `p`/`P` for hex): a marker
byte from `echars`, an optional sign, then digits; if no digit follows the
marker the whole exponent part is not consumed (strtod backtracks). -/
def parseExp (echars : List Nat) (l : List Nat) : Int × List Nat :=
  match l with
  | [] => (0, [])
  | c :: r =>
    if c ∈ echars then
      match signSplit r with
      | (eneg, r2) =>
        match scanDec r2 0 0 with
        | (ev, ke, r3) =>
          if ke = 0 then (0, c :: r)
          else (if eneg then -(ev : Int) else (ev : Int), r3)
    else (0, c :: r)

/-- Rest after an optional NaN payload `( chars )`. -/
def nanRest (l : List Nat) : List Nat :=
  match l with
  | 40 :: r =>
    if (r.dropWhile isAlnumU).head? = some 41 then (r.dropWhile isAlnumU).drop 1 else l
  | _ => l

/-- Does a hex-float mantissa start here (needed for `0x` to commit to the
hexadecimal form rather than parse plain `0`)? -/
def hexStarts : List Nat → Bool
  | [] => false
  | c :: r =>
    isHexB c ||
      (decide (c = 46) && (match r with | d :: _ => isHexB d | [] => false))

/-- Magnitude part of C `strtod` after whitespace and sign: infinity, NaN,
hexadecimal float, or decimal float; `none` when no conversion can be
performed from this point. -/
def strtodCore (l : List Nat) : Option (DVal × List Nat) :=
  if (l.take 8).map lowerB = strBytes "infinity" then some (DVal.inf false, l.drop 8)
  else if (l.take 3).map lowerB = strBytes "inf" then some (DVal.inf false, l.drop 3)
  else if (l.take 3).map lowerB = strBytes "nan" then some (DVal.nan, nanRest (l.drop 3))
  else if (l.take 2).map lowerB = strBytes "0x" ∧ hexStarts (l.drop 2) = true then
    match parseHexMant (l.drop 2) with
    | none => none
    | some ((n0, d0), r2) =>
      match parseExp [112, 80] r2 with
      | (e, r3) => some (finScaled 2 n0 d0 e, r3)
  else
    match parseDecMant l with
    | none => none
    | some ((n0, d0), r2) =>
      match parseExp [101, 69] r2 with
      | (e, r3) => some (finScaled 10 n0 d0 e, r3)

/-- Apply the leading sign to a parsed magnitude (the sign of a NaN is
irrelevant to `isnan`). -/
def applySign (neg : Bool) : DVal → DVal
  | DVal.fin n d => DVal.fin (if neg then -n else n) d
  | DVal.inf _ => DVal.inf neg
  | DVal.nan => DVal.nan

/-- C `strtod` on the bytes of a `std::string` (scanning stops at an interior
NUL byte just as `c_str()` would): returns the value and the number of bytes
consumed; no conversion gives value 0 and 0 bytes consumed. -/
def strtodParse (s : Str) : DVal × Nat :=
  let l1 := s.dropWhile isSpaceB
  match signSplit l1 with
  | (neg, l2) =>
    match strtodCore l2 with
    | some (v, rest) => (applySign neg v, s.length - rest.length)
    | none => (DVal.fin 0 1, 0)

/-- `str2dbl`: `strtod` must consume the whole string and the result must not
be NaN (`endp == s.c_str() + s.size() && !isnan(out)`). -/
def str2dbl (s : Str) : Option DVal :=
  match strtodParse s with
  | (v, c) => if c = s.length ∧ v ≠ DVal.nan then some v else none

/-- C `strtoll` base 10 on the bytes of a `std::string`: value (saturated to
the `int64_t` range on overflow) and bytes consumed. -/
def strtollParse (s : Str) : Int × Nat :=
  let l1 := s.dropWhile isSpaceB
  match signSplit l1 with
  | (neg, l2) =>
    match scanDec l2 0 0 with
    | (v, k, rest) =>
      if k = 0 then (0, 0)
      else
        let raw : Int := if neg then -(v : Int) else (v : Int)
        let cl : Int :=
          if raw < -9223372036854775808 then -9223372036854775808
          else if 9223372036854775807 < raw then 9223372036854775807
          else raw
        (cl, s.length - rest.length)

/-- `str2int`: `strtoll` must consume the whole string. -/
def str2int (s : Str) : Option Int :=
  match strtollParse s with
  | (v, c) => if c = s.length then some v else none

/-- Lexicographic byte-string comparison (memcmp on the common prefix, then
the shorter string is smaller), as the tie-break of the (score, name) key. -/
def strLtB : Str → Str → Bool
  | [], [] => false
  | [], _ :: _ => true
  | _ :: _, [] => false
  | a :: as, b :: bs => if a < b then true else if b < a then false else strLtB as bs

/-- Modelled from the spec (the `zless` comparison of the missing
`zset.cpp`): strict order on (score, name) pairs — by score, name
lexicographic on score ties. -/
def zkeyLt (s1 : DVal) (n1 : Str) (s2 : DVal) (n2 : Str) : Bool :=
  if dEq s1 s2 then strLtB n1 n2 else dLt s1 s2

/-- Modelled from the spec (missing `zset.cpp`): a ZSet is its in-order
view — the list of (name, score) members in ascending (score, name) order.
The hash-map index and the AVL tree over the same ZNodes collapse to this
one list. -/
abbrev ZSet := List (Str × DVal)

/-- The ascending (score, name) order invariant of a ZSet's in-order view. -/
def ZSorted (z : ZSet) : Prop :=
  List.Pairwise (fun a b => zkeyLt a.2 a.1 b.2 b.1 = true) z

instance (z : ZSet) : Decidable (ZSorted z) := by
  unfold ZSorted
  infer_instance

/-- Modelled from the spec (missing `zset.cpp`): `zset_lookup` — hash-map
probe by name. -/
def zset_lookup (z : ZSet) (name : Str) : Option DVal :=
  match z.find? (fun p => decide (p.1 = name)) with
  | none => none
  | some p => some p.2

/-- Modelled from the spec (missing `zset.cpp`): remove the node of `name`
from both indices. -/
def zset_erase (z : ZSet) (name : Str) : ZSet :=
  z.filter (fun p => decide (p.1 ≠ name))

/-- Modelled from the spec (missing `zset.cpp`/`avl.cpp`): tree insertion at
the (score, name) position. -/
def zinsertSorted : ZSet → Str → DVal → ZSet
  | [], name, score => [(name, score)]
  | (n0, s0) :: rest, name, score =>
    if zkeyLt s0 n0 score name then (n0, s0) :: zinsertSorted rest name score
    else (name, score) :: (n0, s0) :: rest

/-- Modelled from the spec (missing `zset.cpp`): `zset_insert` — update the
score of an existing member (detach, rewrite, reinsert) returning `false`,
or insert a new member returning `true`. -/
def zset_insert (z : ZSet) (name : Str) (score : DVal) : ZSet × Bool :=
  match zset_lookup z name with
  | some _ => (zinsertSorted (zset_erase z name) name score, false)
  | none => (zinsertSorted z name score, true)

/-- Number of members strictly below the (score, name) key in the in-order
view. -/
def seekIdx : ZSet → DVal → Str → Nat
  | [], _, _ => 0
  | (n0, s0) :: rest, score, name =>
    if zkeyLt s0 n0 score name then seekIdx rest score name + 1 else 0

/-- Modelled from the spec (missing `zset.cpp`): `zset_seekge` — position of
the smallest member with (score, name) at least the key, `none` when no such
member exists (the NULL node). -/
def zset_seekge (z : ZSet) (score : DVal) (name : Str) : Option Nat :=
  if seekIdx z score name < z.length then some (seekIdx z score name) else none

/-- Modelled from the spec (missing `zset.cpp`/`avl.cpp`):
`znode_offset`/`avl_offset` — move `offset` steps through the in-order view,
`none` (NULL) from NULL or when the walk leaves the tree. -/
def znode_offset (z : ZSet) (pos : Option Nat) (offset : Int) : Option Nat :=
  match pos with
  | none => none
  | some i =>
    if 0 ≤ (i : Int) + offset ∧ (i : Int) + offset < (z.length : Int) then
      some ((i : Int) + offset).toNat
    else none

/-- A keyspace value: tagged `T_STR` string or `T_ZSET` sorted set. -/
inductive Val : Type where
  | str (s : Str) : Val
  | zset (z : ZSet) : Val
deriving DecidableEq

/-- Modelled from the spec (missing `hashtable.cpp`): the keyspace `g_data.db`
as an association list with unique keys (progressive rehashing only changes
iteration order, which no claim depends on). -/
abbrev DB := List (Str × Val)

/-- Modelled from the spec (missing `hashtable.cpp`): `hm_lookup` with
`entry_eq` — find the entry of a key. -/
def dbGet : DB → Str → Option Val
  | [], _ => none
  | (k0, v0) :: rest, k => if k0 = k then some v0 else dbGet rest k

/-- In-place update of the value payload of an existing entry (the source
mutates through the looked-up `Entry` pointer). -/
def dbUpdate : DB → Str → Val → DB
  | [], _, _ => []
  | (k0, v0) :: rest, k, v => if k0 = k then (k0, v) :: rest else (k0, v0) :: dbUpdate rest k v

/-- Modelled from the spec (missing `hashtable.cpp`): `hm_insert` of a fresh
entry. -/
def dbInsert (db : DB) (k : Str) (v : Val) : DB := (k, v) :: db

/-- Modelled from the spec (missing `hashtable.cpp`): `hm_delete` with
`entry_eq`, followed by `entry_del`. -/
def dbDelete : DB → Str → DB
  | [], _ => []
  | (k0, v0) :: rest, k => if k0 = k then rest else (k0, v0) :: dbDelete rest k

/-- `cmd[i]` (only used at indices the dispatcher guarantees exist). -/
def arg (cmd : List Str) (i : Nat) : Str := cmd.getD i []

/-- Command-name byte strings. -/
def sGet : Str := strBytes "get"

def sSet : Str := strBytes "set"

def sDel : Str := strBytes "del"

def sKeys : Str := strBytes "keys"

def sZadd : Str := strBytes "zadd"

def sZrem : Str := strBytes "zrem"

def sZscore : Str := strBytes "zscore"

def sZquery : Str := strBytes "zquery"

/-- `do_get`. -/
def do_get (db : DB) (cmd : List Str) (out : Buffer) : Buffer :=
  match dbGet db (arg cmd 1) with
  | none => out_nil out
  | some (Val.str s) => out_str out s
  | some (Val.zset _) => out_err out 3 (strBytes "not a string value")

/-- `do_set`. -/
def do_set (db : DB) (cmd : List Str) (out : Buffer) : DB × Buffer :=
  match dbGet db (arg cmd 1) with
  | some (Val.str _) => (dbUpdate db (arg cmd 1) (Val.str (arg cmd 2)), out_nil out)
  | some (Val.zset _) => (db, out_err out 3 (strBytes "a non-string value exists"))
  | none => (dbInsert db (arg cmd 1) (Val.str (arg cmd 2)), out_nil out)

/-- `do_del`. -/
def do_del (db : DB) (cmd : List Str) (out : Buffer) : DB × Buffer :=
  match dbGet db (arg cmd 1) with
  | some _ => (dbDelete db (arg cmd 1), out_int out 1)
  | none => (db, out_int out 0)

/-- `do_keys` (`hm_size` cast to `uint32_t`, then every key via `cb_keys`). -/
def do_keys (db : DB) (out : Buffer) : Buffer :=
  db.foldl (fun o e => out_str o e.1) (out_arr out (db.length % 4294967296))

/-- `do_zadd`. -/
def do_zadd (db : DB) (cmd : List Str) (out : Buffer) : DB × Buffer :=
  match str2dbl (arg cmd 2) with
  | none => (db, out_err out 4 (strBytes "expect float"))
  | some score =>
    match dbGet db (arg cmd 1) with
    | none =>
      (dbInsert db (arg cmd 1) (Val.zset (zset_insert [] (arg cmd 3) score).1),
       out_int out (if (zset_insert [] (arg cmd 3) score).2 then 1 else 0))
    | some (Val.zset z) =>
      (dbUpdate db (arg cmd 1) (Val.zset (zset_insert z (arg cmd 3) score).1),
       out_int out (if (zset_insert z (arg cmd 3) score).2 then 1 else 0))
    | some (Val.str _) => (db, out_err out 3 (strBytes "expect zset"))

/-- `expect_zset`: a missing key is the shared empty-ZSet sentinel, an entry
of the wrong type is NULL (`none`). -/
def expect_zset (db : DB) (k : Str) : Option ZSet :=
  match dbGet db k with
  | none => some []
  | some (Val.zset z) => some z
  | some (Val.str _) => none

/-- `do_zrem` (deleting a found node writes the shrunken set back through
the entry the node belongs to). -/
def do_zrem (db : DB) (cmd : List Str) (out : Buffer) : DB × Buffer :=
  match expect_zset db (arg cmd 1) with
  | none => (db, out_err out 3 (strBytes "expect zset"))
  | some z =>
    match zset_lookup z (arg cmd 2) with
    | none => (db, out_int out 0)
    | some _ => (dbUpdate db (arg cmd 1) (Val.zset (zset_erase z (arg cmd 2))), out_int out 1)

/-- `do_zscore`. -/
def do_zscore (db : DB) (cmd : List Str) (out : Buffer) : Buffer :=
  match expect_zset db (arg cmd 1) with
  | none => out_err out 3 (strBytes "expect zset")
  | some z =>
    match zset_lookup z (arg cmd 2) with
    | none => out_nil out
    | some score => out_dbl out score

/-- The output loop of `do_zquery`:
`while (znode && n < limit) { out_str; out_dbl; advance; n += 2; }`,
walking the in-order view from the current node. -/
def zqLoop (limit : Int) : List (Str × DVal) → Int → Buffer → Buffer × Int
  | [], n, out => (out, n)
  | (name, score) :: rest, n, out =>
    if n < limit then zqLoop limit rest (n + 2) (out_dbl (out_str out name) score)
    else (out, n)

/-- `do_zquery`. -/
def do_zquery (db : DB) (cmd : List Str) (out : Buffer) : Buffer :=
  match str2dbl (arg cmd 2) with
  | none => out_err out 4 (strBytes "expect fp number")
  | some score =>
    match str2int (arg cmd 4), str2int (arg cmd 5) with
    | some offset, some limit =>
      (match expect_zset db (arg cmd 1) with
       | none => out_err out 3 (strBytes "expect zset")
       | some z =>
         if limit ≤ 0 then out_arr out 0
         else
           match out_begin_arr out with
           | (out1, ctx) =>
             match znode_offset z (zset_seekge z score (arg cmd 3)) offset with
             | none => out_end_arr out1 ctx 0
             | some p =>
               match zqLoop limit (z.drop p) 0 out1 with
               | (out2, n) => out_end_arr out2 ctx (n.toNat % 4294967296))
    | _, _ => out_err out 4 (strBytes "expect int")

/-- `do_request`: dispatch on `(arity, lowercased-exact name)`. -/
def do_request (db : DB) (cmd : List Str) (out : Buffer) : DB × Buffer :=
  if cmd.length = 2 ∧ arg cmd 0 = sGet then (db, do_get db cmd out)
  else if cmd.length = 3 ∧ arg cmd 0 = sSet then do_set db cmd out
  else if cmd.length = 2 ∧ arg cmd 0 = sDel then do_del db cmd out
  else if cmd.length = 1 ∧ arg cmd 0 = sKeys then (db, do_keys db out)
  else if cmd.length = 4 ∧ arg cmd 0 = sZadd then do_zadd db cmd out
  else if cmd.length = 3 ∧ arg cmd 0 = sZrem then do_zrem db cmd out
  else if cmd.length = 3 ∧ arg cmd 0 = sZscore then (db, do_zscore db cmd out)
  else if cmd.length = 6 ∧ arg cmd 0 = sZquery then (db, do_zquery db cmd out)
  else (db, out_err out 1 (strBytes "unknown command."))

/-- `response_begin`: reserve the 4-byte length header, return the new buffer
and the header's byte position. -/
def response_begin (out : Buffer) : Buffer × Nat := (out ++ [Tok.u32 0], bufLen out)

/-- `response_size`. -/
def response_size (out : Buffer) (header : Nat) : Nat := bufLen out - header - 4

/-- `response_end`: replace an oversized body with `ERR(TOO_BIG)` after
truncating back to the header, then backpatch the `uint32_t` length. -/
def response_end (out : Buffer) (header : Nat) : Buffer :=
  if k_max_msg < response_size out header then
    patchU32 (out_err (takeBytes out (header + 4)) 2 (strBytes "response too big.")) header
      (response_size (out_err (takeBytes out (header + 4)) 2 (strBytes "response too big.")) header
        % 4294967296)
  else patchU32 out header (response_size out header % 4294967296)

/-- Per-connection state relevant to request processing: the `incoming` byte
buffer, the `outgoing` buffer and the `want_close` intent.  The fd, the
read/write intents and the idle-timer fields drive only the OS-level event
loop and are not modelled. -/
structure Conn where
  incoming : List Nat
  outgoing : Buffer
  wantClose : Bool
deriving DecidableEq

/-- `memcpy(&len, conn->incoming.data(), 4)`: little-endian `uint32_t` from
the first four bytes. -/
def decodeU32 (l : List Nat) : Nat :=
  l.getD 0 0 + 256 * l.getD 1 0 + 65536 * l.getD 2 0 + 16777216 * l.getD 3 0

/-- `try_one_request`: `true` means one framed request was consumed and its
response appended; `false` means not enough data, or a protocol error that
set `want_close`. -/
def try_one_request (db : DB) (c : Conn) : (DB × Conn) × Bool :=
  if c.incoming.length < 4 then ((db, c), false)
  else
    if k_max_msg < decodeU32 c.incoming then ((db, { c with wantClose := true }), false)
    else if c.incoming.length < 4 + decodeU32 c.incoming then ((db, c), false)
    else
      match parse_req ((c.incoming.drop 4).take (decodeU32 c.incoming)) with
      | none => ((db, { c with wantClose := true }), false)
      | some cmd =>
        (((do_request db cmd (response_begin c.outgoing).1).1,
          { c with incoming := c.incoming.drop (4 + decodeU32 c.incoming),
                   outgoing := response_end (do_request db cmd (response_begin c.outgoing).1).2
                                 (response_begin c.outgoing).2 }), true)

/-- The `while (try_one_request(conn)) {}` loop of `handle_read`: parse
every complete request in the incoming buffer, appending the responses in
order.  Termination: a successful `try_one_request` consumes the 4-byte
header plus the body, so the incoming buffer strictly shrinks. -/
def processRequests (db : DB) (c : Conn) : DB × Conn :=
  if hOk : (try_one_request db c).2 = true then
    processRequests (try_one_request db c).1.1 (try_one_request db c).1.2
  else (try_one_request db c).1
termination_by c.incoming.length
decreasing_by
  rcases h : try_one_request db c with ⟨⟨db', c'⟩, ok⟩
  rw [h] at hOk
  dsimp at hOk
  subst hOk
  dsimp only
  unfold try_one_request at h
  split at h
  · exact absurd (congrArg Prod.snd h) (by simp)
  · split at h
    · exact absurd (congrArg Prod.snd h) (by simp)
    · split at h
      · exact absurd (congrArg Prod.snd h) (by simp)
      · split at h
        · exact absurd (congrArg Prod.snd h) (by simp)
        · have hc := congrArg (fun p => p.1.2.incoming.length) h
          simp only [List.length_drop] at hc
          omega

/-- Little-endian bytes of a `uint32_t`. -/
def u32le (n : Nat) : List Nat :=
  [n % 256, n / 256 % 256, n / 65536 % 256, n / 16777216 % 256]

/-- Wire encoding of a request body: `u32 nstr` then length-prefixed
arguments. -/
def encodeBody (cmd : List Str) : List Nat :=
  u32le cmd.length ++ cmd.foldr (fun s acc => u32le s.length ++ s ++ acc) []

/-- A complete request frame: `u32 body_len` then the body. -/
def frameOf (cmd : List Str) : List Nat :=
  u32le (encodeBody cmd).length ++ encodeBody cmd

/-- A request the protocol can carry: within the argument-count limit, every
argument length and the body length within `uint32_t` framing and the
`k_max_msg` limit. -/
def WFReq (cmd : List Str) : Prop :=
  cmd.length ≤ k_max_args ∧ (∀ s ∈ cmd, s.length < 4294967296) ∧
    (encodeBody cmd).length ≤ k_max_msg

instance (cmd : List Str) : Decidable (WFReq cmd) := by
  unfold WFReq
  infer_instance

/-- The complete framed response to one parsed request starting from an
empty outgoing buffer. -/
def respond1 (db : DB) (cmd : List Str) : DB × Buffer :=
  match do_request db cmd [Tok.u32 0] with
  | (db1, out2) => (db1, response_end out2 0)

/-- Responses to a request sequence, each computed against the keyspace the
previous requests left behind, concatenated in arrival order. -/
def runCmds : DB → List (List Str) → DB × Buffer
  | db, [] => (db, [])
  | db, cmd :: rest =>
    match respond1 db cmd with
    | (db1, r) =>
      match runCmds db1 rest with
      | (db2, rs) => (db2, r ++ rs)

/-- The tokens one matched member contributes: its name as a STR, then its
score as a DBL. -/
def pairTok (p : Str × DVal) : Buffer :=
  [Tok.u8 2, Tok.u32 (p.1.length % 4294967296), Tok.bytes p.1, Tok.u8 4, Tok.dbl p.2]

/-- Tokens of a run of members. -/
def emitPairs : List (Str × DVal) → Buffer
  | [] => []
  | p :: r => pairTok p ++ emitPairs r

/-- The serialized `ERR(TOO_BIG, "response too big.")` value (26 bytes). -/
def errTooBigToks : Buffer :=
  [Tok.u8 1, Tok.u32 2, Tok.u32 17, Tok.bytes (strBytes "response too big.")]

/-- The eight `(arity, name)` pairs the dispatcher recognizes. -/
def cmdMatches (cmd : List Str) : Prop :=
  (cmd.length = 2 ∧ arg cmd 0 = sGet) ∨ (cmd.length = 3 ∧ arg cmd 0 = sSet) ∨
  (cmd.length = 2 ∧ arg cmd 0 = sDel) ∨ (cmd.length = 1 ∧ arg cmd 0 = sKeys) ∨
  (cmd.length = 4 ∧ arg cmd 0 = sZadd) ∨ (cmd.length = 3 ∧ arg cmd 0 = sZrem) ∨
  (cmd.length = 3 ∧ arg cmd 0 = sZscore) ∨ (cmd.length = 6 ∧ arg cmd 0 = sZquery)

instance (cmd : List Str) : Decidable (cmdMatches cmd) := by
  unfold cmdMatches
  infer_instance

/-- From the spec's words, for refutation only: the score argument "parses
as a finite double" — `strtod` consumes the whole string and yields a
finite value. -/
def specParsesFiniteDouble (s : Str) : Bool :=
  decide ((strtodParse s).2 = s.length) &&
    (match (strtodParse s).1 with
     | DVal.fin _ _ => true
     | _ => false)

/-- Concatenation of the frames of a request sequence. -/
def framesOf : List (List Str) → List Nat
  | [] => []
  | cmd :: rest => frameOf cmd ++ framesOf rest

/-- From the spec's words, for refutation only: a zquery reply that emits up
to `limit` matched (name, score) PAIRS — i.e. `min(available, limit)` whole
members — after seek-≥ and offset. -/
def spec_zquery_pairs (z : ZSet) (score : DVal) (name : Str) (offset limit : Int) : Buffer :=
  if limit ≤ 0 then [Tok.u8 5, Tok.u32 0]
  else
    match znode_offset z (zset_seekge z score name) offset with
    | none => [Tok.u8 5, Tok.u32 0]
    | some p =>
      Tok.u8 5 :: Tok.u32 (2 * ((z.drop p).take limit.toNat).length) ::
        emitPairs ((z.drop p).take limit.toNat)

/-- Every value in the keyspace small enough for the `uint32_t` array-count
cast to be lossless (trivially true of every physically realizable set). -/
def ValSmall : Val → Prop
  | Val.zset z => 2 * z.length < 4294967296
  | Val.str _ => True

instance (v : Val) : Decidable (ValSmall v) := by
  unfold ValSmall
  cases v <;> infer_instance

/-! ### Buffer lemmas -/

theorem bufLen_append (a b : Buffer) : bufLen (a ++ b) = bufLen a + bufLen b := by
  induction a with
  | nil => simp [bufLen]
  | cons t a ih => simp [bufLen, ih]; omega

theorem patchU32_step (t : Tok) (l : Buffer) (r v : Nat) :
    patchU32 (t :: l) (tokLen t + r) v = t :: patchU32 l r v := by
  cases t with
  | u8 w => simp [patchU32, tokLen]
  | u32 w => simp [patchU32, tokLen]
  | i64 w => simp [patchU32, tokLen]
  | dbl w => simp [patchU32, tokLen]
  | bytes s =>
    by_cases hs : s.length = 0
    · by_cases hr : r = 0
      · simp [patchU32, tokLen, hs, hr]
      · simp [patchU32, tokLen, hs, hr]
    · simp [patchU32, tokLen, hs]

theorem patchU32_append (a b : Buffer) (k v : Nat) :
    patchU32 (a ++ b) (bufLen a + k) v = a ++ patchU32 b k v := by
  induction a generalizing k with
  | nil => simp [bufLen]
  | cons t a ih =>
    have hlen : bufLen (t :: a) + k = tokLen t + (bufLen a + k) := by
      simp [bufLen]; omega
    rw [List.cons_append, hlen, patchU32_step, ih]
    rfl

theorem takeBytes_zero (l : Buffer) : takeBytes l 0 = [] := by
  cases l <;> simp [takeBytes]

theorem takeBytes_append (a b : Buffer) (k : Nat) (hk : 1 ≤ k) :
    takeBytes (a ++ b) (bufLen a + k) = a ++ takeBytes b k := by
  induction a generalizing k with
  | nil => simp [bufLen]
  | cons t a ih =>
    have hlen : bufLen (t :: a) + k = tokLen t + (bufLen a + k) := by
      simp [bufLen]; omega
    rw [List.cons_append, hlen, takeBytes, if_neg (by omega), if_pos (by omega),
      Nat.add_sub_cancel_left, ih _ hk]
    rfl

/-! ### zquery loop characterization -/

theorem zqLoop_spec (L : Int) (rem : List (Str × DVal)) :
    ∀ (n : Int) (out : Buffer),
      zqLoop L rem n out =
        (out ++ emitPairs (rem.take (((L - n).toNat + 1) / 2)),
         n + 2 * (min rem.length (((L - n).toNat + 1) / 2) : Nat)) := by
  induction rem with
  | nil => intro n out; simp [zqLoop, emitPairs]
  | cons p rest ih =>
    intro n out
    obtain ⟨nm, sc⟩ := p
    rw [zqLoop]
    by_cases h : n < L
    · rw [if_pos h, ih]
      have hcap : ((L - n).toNat + 1) / 2 = ((L - (n + 2)).toNat + 1) / 2 + 1 := by omega
      rw [hcap, List.take_succ_cons]
      simp only [Prod.mk.injEq]
      refine ⟨?_, ?_⟩
      · simp [out_str, out_dbl, emitPairs, pairTok]
      · simp only [List.length_cons]
        push_cast
        omega
    · rw [if_neg h]
      have hcap : ((L - n).toNat + 1) / 2 = 0 := by omega
      simp [hcap, emitPairs]

/-! ### Response framing -/

theorem out_err_too_big (out : Buffer) :
    out_err out 2 (strBytes "response too big.") = out ++ errTooBigToks := by
  simp [out_err, errTooBigToks, strBytes]

theorem bufLen_errTooBigToks : bufLen errTooBigToks = 26 := by decide

theorem patchU32_append_zero (a b : Buffer) (v : Nat) :
    patchU32 (a ++ b) (bufLen a) v = a ++ patchU32 b 0 v := by
  have h := patchU32_append a b 0 v
  simpa using h

/-- The `response_end` contract: with the buffer laid out as
(earlier responses) ++ (4-byte header) ++ (this response's body), an
oversized body is dropped for `ERR TOO_BIG` and the backpatched header is
exactly the byte length of the value that follows it. -/
theorem response_end_eq (a : Buffer) (x : Nat) (body : Buffer) :
    response_end (a ++ Tok.u32 x :: body) (bufLen a) =
      if k_max_msg < bufLen body then a ++ Tok.u32 26 :: errTooBigToks
      else a ++ Tok.u32 (bufLen body) :: body := by
  have hsize : response_size (a ++ Tok.u32 x :: body) (bufLen a) = bufLen body := by
    simp [response_size, bufLen_append, bufLen, tokLen]
  have htake : takeBytes (a ++ Tok.u32 x :: body) (bufLen a + 4) = a ++ [Tok.u32 x] := by
    have h1 : (Tok.u32 x :: body) = [Tok.u32 x] ++ body := rfl
    rw [h1, takeBytes_append a ([Tok.u32 x] ++ body) 4 (by omega)]
    simp [takeBytes, tokLen, takeBytes_zero]
  rw [response_end, hsize, htake, out_err_too_big, List.append_assoc]
  by_cases h : k_max_msg < bufLen body
  · rw [if_pos h, if_pos h]
    have hsize2 : response_size (a ++ ([Tok.u32 x] ++ errTooBigToks)) (bufLen a) = 26 := by
      simp [response_size, bufLen_append, bufLen, tokLen, bufLen_errTooBigToks]
      decide
    rw [hsize2, patchU32_append_zero]
    simp [patchU32]
  · rw [if_neg h, if_neg h]
    have h1 : (Tok.u32 x :: body) = [Tok.u32 x] ++ body := rfl
    rw [h1, patchU32_append_zero]
    have hm : bufLen body % 4294967296 = bufLen body := by
      have h2 : bufLen body ≤ k_max_msg := by omega
      have h3 : bufLen body < 4294967296 := by
        simp [k_max_msg] at h2
        omega
      exact Nat.mod_eq_of_lt h3
    simp [patchU32, hm]

theorem response_end_shift (pre rest : Buffer) :
    response_end (pre ++ rest) (bufLen pre) = pre ++ response_end rest 0 := by
  have hs : response_size (pre ++ rest) (bufLen pre) = response_size rest 0 := by
    simp [response_size, bufLen_append]
  have htake : takeBytes (pre ++ rest) (bufLen pre + 4) = pre ++ takeBytes rest 4 := by
    exact takeBytes_append pre rest 4 (by omega)
  have h04 : (0 : Nat) + 4 = 4 := rfl
  have herr : out_err (pre ++ takeBytes rest 4) 2 (strBytes "response too big.") =
      pre ++ out_err (takeBytes rest 4) 2 (strBytes "response too big.") := by
    simp [out_err, List.append_assoc]
  rw [response_end, response_end, hs, htake, h04, herr]
  by_cases hbig : k_max_msg < response_size rest 0
  · rw [if_pos hbig, if_pos hbig]
    have hs2 : response_size (pre ++ out_err (takeBytes rest 4) 2 (strBytes "response too big."))
        (bufLen pre) = response_size (out_err (takeBytes rest 4) 2 (strBytes "response too big.")) 0 := by
      simp [response_size, bufLen_append]
    rw [hs2, patchU32_append_zero]
  · rw [if_neg hbig, if_neg hbig, patchU32_append_zero]

theorem out_end_arr_begin (out : Buffer) (E : Buffer) (n : Nat) :
    out_end_arr ((out ++ [Tok.u8 5, Tok.u32 0]) ++ E) (bufLen out + 1) n =
      out ++ Tok.u8 5 :: Tok.u32 n :: E := by
  rw [out_end_arr, List.append_assoc]
  rw [patchU32_append out ([Tok.u8 5, Tok.u32 0] ++ E) 1 n]
  simp [patchU32, tokLen]

/-- Full characterization of `do_zquery` once all arguments parse, the key
is a ZSet (or missing), and the limit is positive: seek, offset, then emit
`min(available, ceil(limit / 2))` members — the loop counts two output
entries per member against `limit`. -/
theorem do_zquery_eq (db : DB) (cmd : List Str) (out : Buffer)
    (score : DVal) (offset limit : Int) (z : ZSet)
    (hs : str2dbl (arg cmd 2) = some score)
    (ho : str2int (arg cmd 4) = some offset)
    (hl : str2int (arg cmd 5) = some limit)
    (hz : expect_zset db (arg cmd 1) = some z)
    (hpos : ¬ limit ≤ 0) :
    do_zquery db cmd out =
      match znode_offset z (zset_seekge z score (arg cmd 3)) offset with
      | none => out ++ [Tok.u8 5, Tok.u32 0]
      | some p =>
        out ++ Tok.u8 5 ::
          Tok.u32 (2 * min (z.length - p) ((limit.toNat + 1) / 2) % 4294967296) ::
          emitPairs ((z.drop p).take ((limit.toNat + 1) / 2)) := by
  rw [do_zquery, hs, ho, hl, hz]
  simp only [if_neg hpos, out_begin_arr]
  cases hoff : znode_offset z (zset_seekge z score (arg cmd 3)) offset with
  | none =>
    simp only [out_end_arr]
    have h := patchU32_append out [Tok.u8 5, Tok.u32 0] 1 0
    rw [h]
    simp [patchU32, tokLen]
  | some p =>
    dsimp only
    rw [zqLoop_spec]
    dsimp only
    have hn : (((0 : Int) + 2 * (min (z.drop p).length (((limit - 0).toNat + 1) / 2) : Nat)).toNat
        % 4294967296) =
        (2 * min (z.length - p) ((limit.toNat + 1) / 2)) % 4294967296 := by
      simp only [List.length_drop, Int.sub_zero]
      omega
    rw [hn]
    have hsub : ((limit - 0).toNat + 1) / 2 = (limit.toNat + 1) / 2 := by omega
    rw [hsub, out_end_arr_begin]

/-! ### Keyspace lemmas -/

theorem dbGet_mem (db : DB) (k : Str) (v : Val) (h : dbGet db k = some v) : (k, v) ∈ db := by
  induction db with
  | nil => simp [dbGet] at h
  | cons e rest ih =>
    obtain ⟨k0, v0⟩ := e
    rw [dbGet] at h
    by_cases hk : k0 = k
    · rw [if_pos hk] at h
      subst hk
      simp at h
      simp [h]
    · rw [if_neg hk] at h
      exact List.mem_cons_of_mem _ (ih h)

theorem dbGet_dbUpdate_self (db : DB) (k : Str) (v u : Val)
    (h : dbGet db k = some u) : dbGet (dbUpdate db k v) k = some v := by
  induction db with
  | nil => simp [dbGet] at h
  | cons e rest ih =>
    obtain ⟨k0, v0⟩ := e
    rw [dbGet] at h
    by_cases hk : k0 = k
    · rw [dbUpdate, if_pos hk, dbGet, if_pos hk]
    · rw [if_neg hk] at h
      rw [dbUpdate, if_neg hk, dbGet, if_neg hk]
      exact ih h

theorem str2dbl_none_iff (s : Str) :
    str2dbl s = none ↔ ¬((strtodParse s).2 = s.length ∧ (strtodParse s).1 ≠ DVal.nan) := by
  rw [str2dbl]
  cases h : strtodParse s with
  | mk v c =>
    by_cases hc : c = s.length ∧ v ≠ DVal.nan
    · simp [hc]
    · simp [hc]

theorem read_u32_decode (l : List Nat) (n : Nat) (r : List Nat)
    (h : read_u32 l = some (n, r)) : n = decodeU32 l := by
  match l with
  | [] => simp [read_u32] at h
  | [a] => simp [read_u32] at h
  | [a, b] => simp [read_u32] at h
  | [a, b, c] => simp [read_u32] at h
  | a :: b :: c :: d :: rest =>
    rw [read_u32] at h
    simp at h
    simp [decodeU32, List.getD, h.1]

theorem parse_req_none_of_big_nstr (body : List Nat)
    (h : k_max_args < decodeU32 body) : parse_req body = none := by
  rw [parse_req]
  cases hr : read_u32 body with
  | none => rfl
  | some p =>
    obtain ⟨n, rest⟩ := p
    have hn := read_u32_decode body n rest hr
    dsimp only
    rw [if_pos (hn ▸ h)]

/-! ### Claims -/

/-- C3: a declared `body_len` over `k_max_msg`, or (once the whole frame is
in the buffer) an argument count over `k_max_args`, a declared length
running past the body end, or trailing garbage, makes `try_one_request`
set `want_close` and produce no reply (the outgoing buffer is untouched). -/
theorem c3_protocol_error_closes (db : DB) (c : Conn)
    (h4 : 4 ≤ c.incoming.length)
    (herr : k_max_msg < decodeU32 c.incoming ∨
      (4 + decodeU32 c.incoming ≤ c.incoming.length ∧
        (k_max_args < decodeU32 ((c.incoming.drop 4).take (decodeU32 c.incoming)) ∨
         parse_req ((c.incoming.drop 4).take (decodeU32 c.incoming)) = none))) :
    try_one_request db c = ((db, { c with wantClose := true }), false) := by
  rw [try_one_request, if_neg (by omega)]
  rcases herr with hbig | ⟨hcomp, hparse⟩
  · rw [if_pos hbig]
  · have hparse2 : parse_req ((c.incoming.drop 4).take (decodeU32 c.incoming)) = none := by
      rcases hparse with hn | hp
      · exact parse_req_none_of_big_nstr _ hn
      · exact hp
    by_cases hb : k_max_msg < decodeU32 c.incoming
    · rw [if_pos hb]
    · rw [if_neg hb, if_neg (by omega), hparse2]

theorem c3_protocol_error_closes_witness :
    (4 ≤ (u32le 33554433).length ∧ k_max_msg < decodeU32 (u32le 33554433)) ∧
    try_one_request [] { incoming := u32le 33554433, outgoing := [], wantClose := false } =
      (([], { incoming := u32le 33554433, outgoing := [], wantClose := true }), false) :=
  ⟨by decide,
   c3_protocol_error_closes [] { incoming := u32le 33554433, outgoing := [], wantClose := false }
     (by decide) (Or.inl (by decide))⟩

/-- C4: `set` on a key bound to a non-STRING value replies
`ERR BAD_TYP ("a non-string value exists")` and returns the keyspace
unchanged — no overwrite, no insertion. -/
theorem c4_set_type_mismatch (db : DB) (k v : Str) (z : ZSet) (out : Buffer)
    (h : dbGet db k = some (Val.zset z)) :
    do_request db [sSet, k, v] out = (db, out_err out 3 (strBytes "a non-string value exists")) := by
  rw [do_request, if_neg (by simp), if_pos ⟨rfl, rfl⟩, do_set,
    show arg [sSet, k, v] 1 = k from rfl, h]

theorem c4_set_type_mismatch_witness :
    dbGet [([107], Val.zset [])] [107] = some (Val.zset []) ∧
    do_request [([107], Val.zset [])] [sSet, [107], [118]] [] =
      ([([107], Val.zset [])], out_err [] 3 (strBytes "a non-string value exists")) :=
  ⟨by decide, c4_set_type_mismatch [([107], Val.zset [])] [107] [118] [] [] (by decide)⟩

/-- C5: the response framing contract of `response_begin`/`response_end`:
a serialized value over `k_max_msg` bytes is dropped — the buffer is cut
back to the 4-byte header and `ERR(TOO_BIG, "response too big.")` (26 bytes)
is emitted instead — and the backpatched `uint32_t` header always equals the
byte length of the value that follows it. -/
theorem c5_response_framing (a : Buffer) (x : Nat) (body : Buffer) :
    bufLen errTooBigToks = 26 ∧
    response_end (a ++ Tok.u32 x :: body) (bufLen a) =
      (if k_max_msg < bufLen body then a ++ Tok.u32 26 :: errTooBigToks
       else a ++ Tok.u32 (bufLen body) :: body) :=
  ⟨bufLen_errTooBigToks, response_end_eq a x body⟩

/-- C7 (amended): `set k v` then `get k` replies `STR v` (with `set` itself
replying NIL) for every non-empty key `k` that is not currently bound to a
non-STRING value; the unamended claim fails when `k` holds a ZSET
(`c7_counterexample`). -/
theorem c7_set_get_roundtrip (db : DB) (k v : Str) (out out2 : Buffer)
    (hk : k ≠ [])
    (h : dbGet db k = none ∨ ∃ s, dbGet db k = some (Val.str s)) :
    (do_request db [sSet, k, v] out).2 = out_nil out ∧
    (do_request (do_request db [sSet, k, v] out).1 [sGet, k] out2).2 = out_str out2 v := by
  have hset : do_request db [sSet, k, v] out = do_set db [sSet, k, v] out := by
    rw [do_request, if_neg (by simp), if_pos ⟨rfl, rfl⟩]
  have hget : ∀ db' : DB, dbGet db' k = some (Val.str v) →
      (do_request db' [sGet, k] out2).2 = out_str out2 v := by
    intro db' hh
    rw [do_request, if_pos ⟨rfl, rfl⟩, do_get, show arg [sGet, k] 1 = k from rfl, hh]
  rw [hset, do_set, show arg [sSet, k, v] 1 = k from rfl, show arg [sSet, k, v] 2 = v from rfl]
  rcases h with hnone | ⟨s, hsome⟩
  · rw [hnone]
    dsimp only
    refine ⟨rfl, hget _ ?_⟩
    rw [dbInsert, dbGet, if_pos rfl]
  · rw [hsome]
    dsimp only
    refine ⟨rfl, hget _ ?_⟩
    exact dbGet_dbUpdate_self db k (Val.str v) _ hsome

theorem c7_set_get_roundtrip_witness :
    (([107] : Str) ≠ [] ∧ dbGet [] [107] = none) ∧
    (do_request [] [sSet, [107], [118]] []).2 = out_nil [] ∧
    (do_request (do_request [] [sSet, [107], [118]] []).1 [sGet, [107]] []).2 =
      out_str [] [118] :=
  ⟨by decide, c7_set_get_roundtrip [] [107] [118] [] [] (by decide) (Or.inl (by decide))⟩

/-- C7 counterexample: with key `k` bound to a ZSET, `set k v; get k` does
not reply `STR v` (both commands reply `ERR BAD_TYP`), refuting the claim
as stated over every starting state. -/
theorem c7_counterexample :
    (([107] : Str) ≠ []) ∧
    (do_request (do_request [([107], Val.zset [])] [sSet, [107], [118]] []).1
        [sGet, [107]] []).2 ≠ out_str [] [118] := by
  refine ⟨by decide, by decide⟩

/-- C8: an argument vector matching none of the eight `(arity, exact name)`
pairs — wrong arity, different casing, or an unknown name — is answered
with `ERR UNKNOWN ("unknown command.")` and does not change the keyspace. -/
theorem c8_unknown_command (db : DB) (cmd : List Str) (out : Buffer)
    (h : ¬ cmdMatches cmd) :
    do_request db cmd out = (db, out_err out 1 (strBytes "unknown command.")) := by
  rw [do_request,
    if_neg (fun hc => h (Or.inl hc)),
    if_neg (fun hc => h (Or.inr (Or.inl hc))),
    if_neg (fun hc => h (Or.inr (Or.inr (Or.inl hc)))),
    if_neg (fun hc => h (Or.inr (Or.inr (Or.inr (Or.inl hc))))),
    if_neg (fun hc => h (Or.inr (Or.inr (Or.inr (Or.inr (Or.inl hc)))))),
    if_neg (fun hc => h (Or.inr (Or.inr (Or.inr (Or.inr (Or.inr (Or.inl hc))))))),
    if_neg (fun hc => h (Or.inr (Or.inr (Or.inr (Or.inr (Or.inr (Or.inr (Or.inl hc)))))))),
    if_neg (fun hc => h (Or.inr (Or.inr (Or.inr (Or.inr (Or.inr (Or.inr (Or.inr hc))))))))]

theorem c8_unknown_command_witness :
    (¬ cmdMatches [strBytes "GET", [107]] ∧ ¬ cmdMatches [sGet] ∧
      ¬ cmdMatches [sGet, [107], [108]]) ∧
    do_request [] [strBytes "GET", [107]] [] =
      ([], out_err [] 1 (strBytes "unknown command.")) :=
  ⟨by decide, c8_unknown_command [] [strBytes "GET", [107]] [] (by decide)⟩

/-- C9 (amended): a `zquery` whose limit parses to a non-positive integer
replies with an empty array provided its score and offset arguments parse
and the key is absent or holds a ZSET; the unamended "regardless of the
key's contents, offset, score" fails on a STRING-typed key
(`c9_counterexample`). -/
theorem c9_nonpositive_limit (db : DB) (k s nm o l : Str) (out : Buffer)
    (score : DVal) (offset limit : Int) (z : ZSet)
    (hs : str2dbl s = some score)
    (ho : str2int o = some offset)
    (hl : str2int l = some limit)
    (hz : expect_zset db k = some z)
    (hlim : limit ≤ 0) :
    do_zquery db [sZquery, k, s, nm, o, l] out = out ++ [Tok.u8 5, Tok.u32 0] := by
  rw [do_zquery, show arg [sZquery, k, s, nm, o, l] 2 = s from rfl, hs,
    show arg [sZquery, k, s, nm, o, l] 4 = o from rfl, ho,
    show arg [sZquery, k, s, nm, o, l] 5 = l from rfl, hl,
    show arg [sZquery, k, s, nm, o, l] 1 = k from rfl, hz]
  dsimp only
  rw [if_pos hlim]
  rfl

theorem c9_nonpositive_limit_witness :
    (str2dbl (strBytes "0") = some (DVal.fin 0 1) ∧ str2int (strBytes "5") = some 5 ∧
      str2int (strBytes "-3") = some (-3) ∧
      expect_zset [([107], Val.zset [([97], DVal.fin 1 1)])] [107] = some [([97], DVal.fin 1 1)] ∧
      (-3 : Int) ≤ 0) ∧
    do_zquery [([107], Val.zset [([97], DVal.fin 1 1)])]
      [sZquery, [107], strBytes "0", [], strBytes "5", strBytes "-3"] [] =
      [] ++ [Tok.u8 5, Tok.u32 0] :=
  ⟨by decide,
   c9_nonpositive_limit [([107], Val.zset [([97], DVal.fin 1 1)])] [107] (strBytes "0") []
     (strBytes "5") (strBytes "-3") [] (DVal.fin 0 1) 5 (-3) [([97], DVal.fin 1 1)]
     (by decide) (by decide) (by decide) (by decide) (by decide)⟩

/-- C9 counterexample: with the queried key bound to a STRING, a `zquery`
whose limit parses to `0` replies `ERR BAD_TYP`, not an empty array — the
reply is not independent of the key's binding. -/
theorem c9_counterexample :
    str2int (strBytes "0") = some 0 ∧
    do_zquery [([107], Val.str [1])]
        [sZquery, [107], strBytes "0", [], strBytes "0", strBytes "0"] [] =
      [Tok.u8 1, Tok.u32 3, Tok.u32 11, Tok.bytes (strBytes "expect zset")] ∧
    do_zquery [([107], Val.str [1])]
        [sZquery, [107], strBytes "0", [], strBytes "0", strBytes "0"] [] ≠
      out_arr [] 0 := by
  refine ⟨by decide, by decide, by decide⟩

/-- C2 counterexample: the score `"inf"` does not parse as a *finite*
double, yet `zadd` accepts it — it creates the key, stores the member with
score `+inf` and replies `INT 1` instead of `ERR BAD_ARG`. -/
theorem c2_counterexample :
    specParsesFiniteDouble (strBytes "inf") = false ∧
    do_zadd [] [sZadd, [107], strBytes "inf", [110]] [] =
      ([([107], Val.zset [([110], DVal.inf false)])], [Tok.u8 3, Tok.i64 1]) := by
  refine ⟨by decide, by decide⟩

/-- C2 (amended): `zadd` replies `ERR BAD_ARG ("expect float")` — leaving
the keyspace untouched — exactly when `strtod` fails to consume the whole
score argument or yields NaN; infinities (and the empty string, consumed
trivially) are accepted. -/
theorem c2_zadd_badarg_iff (db : DB) (k s nm : Str) (out : Buffer) :
    do_zadd db [sZadd, k, s, nm] out = (db, out_err out 4 (strBytes "expect float")) ↔
      ¬((strtodParse s).2 = s.length ∧ (strtodParse s).1 ≠ DVal.nan) := by
  rw [← str2dbl_none_iff]
  constructor
  · intro h
    cases hd : str2dbl s with
    | none => rfl
    | some d =>
      rw [do_zadd, show arg [sZadd, k, s, nm] 2 = s from rfl, hd] at h
      dsimp only at h
      cases hget : dbGet db (arg [sZadd, k, s, nm] 1) with
      | none =>
        rw [hget] at h
        dsimp only at h
        have h2 := congrArg Prod.snd h
        simp [out_int, out_err] at h2
      | some v =>
        cases v with
        | str s' =>
          rw [hget] at h
          dsimp only at h
          have h2 := congrArg Prod.snd h
          simp [out_err] at h2
        | zset z =>
          rw [hget] at h
          dsimp only at h
          have h2 := congrArg Prod.snd h
          simp [out_int, out_err] at h2
  · intro h
    rw [do_zadd, show arg [sZadd, k, s, nm] 2 = s from rfl, h]

/-! ### Responses are appended: every handler only extends the buffer -/

theorem do_get_append (db : DB) (cmd : List Str) (a b : Buffer) :
    do_get db cmd (a ++ b) = a ++ do_get db cmd b := by
  cases h : dbGet db (arg cmd 1) with
  | none => simp [do_get, h, out_nil]
  | some v =>
    cases v with
    | str s => simp [do_get, h, out_str]
    | zset z => simp [do_get, h, out_err]

theorem do_set_append (db : DB) (cmd : List Str) (a b : Buffer) :
    do_set db cmd (a ++ b) = ((do_set db cmd b).1, a ++ (do_set db cmd b).2) := by
  cases h : dbGet db (arg cmd 1) with
  | none => simp [do_set, h, out_nil]
  | some v =>
    cases v with
    | str s => simp [do_set, h, out_nil]
    | zset z => simp [do_set, h, out_err]

theorem do_del_append (db : DB) (cmd : List Str) (a b : Buffer) :
    do_del db cmd (a ++ b) = ((do_del db cmd b).1, a ++ (do_del db cmd b).2) := by
  cases h : dbGet db (arg cmd 1) with
  | none => simp [do_del, h, out_int]
  | some v => simp [do_del, h, out_int]

theorem foldl_out_str_append (db : DB) :
    ∀ (a b : Buffer),
      db.foldl (fun o e => out_str o e.1) (a ++ b) = a ++ db.foldl (fun o e => out_str o e.1) b := by
  induction db with
  | nil => intro a b; simp
  | cons e rest ih =>
    intro a b
    have h1 : out_str (a ++ b) e.1 = a ++ out_str b e.1 := by simp [out_str]
    simp only [List.foldl_cons, h1, ih]

theorem do_keys_append (db : DB) (a b : Buffer) :
    do_keys db (a ++ b) = a ++ do_keys db b := by
  rw [do_keys, do_keys]
  have h1 : out_arr (a ++ b) (db.length % 4294967296) =
      a ++ out_arr b (db.length % 4294967296) := by simp [out_arr]
  rw [h1, foldl_out_str_append]

theorem do_zadd_append (db : DB) (cmd : List Str) (a b : Buffer) :
    do_zadd db cmd (a ++ b) = ((do_zadd db cmd b).1, a ++ (do_zadd db cmd b).2) := by
  cases hs : str2dbl (arg cmd 2) with
  | none => simp [do_zadd, hs, out_err]
  | some score =>
    cases h : dbGet db (arg cmd 1) with
    | none => simp [do_zadd, hs, h, out_int]
    | some v =>
      cases v with
      | str s => simp [do_zadd, hs, h, out_err]
      | zset z => simp [do_zadd, hs, h, out_int]

theorem do_zrem_append (db : DB) (cmd : List Str) (a b : Buffer) :
    do_zrem db cmd (a ++ b) = ((do_zrem db cmd b).1, a ++ (do_zrem db cmd b).2) := by
  cases h : expect_zset db (arg cmd 1) with
  | none => simp [do_zrem, h, out_err]
  | some z =>
    cases hl : zset_lookup z (arg cmd 2) with
    | none => simp [do_zrem, h, hl, out_int]
    | some sc => simp [do_zrem, h, hl, out_int]

theorem do_zscore_append (db : DB) (cmd : List Str) (a b : Buffer) :
    do_zscore db cmd (a ++ b) = a ++ do_zscore db cmd b := by
  cases h : expect_zset db (arg cmd 1) with
  | none => simp [do_zscore, h, out_err]
  | some z =>
    cases hl : zset_lookup z (arg cmd 2) with
    | none => simp [do_zscore, h, hl, out_nil]
    | some sc => simp [do_zscore, h, hl, out_dbl]

theorem do_zquery_append (db : DB) (cmd : List Str) (a b : Buffer) :
    do_zquery db cmd (a ++ b) = a ++ do_zquery db cmd b := by
  cases hs : str2dbl (arg cmd 2) with
  | none => simp [do_zquery, hs, out_err]
  | some score =>
    cases ho : str2int (arg cmd 4) with
    | none => simp [do_zquery, hs, ho, out_err]
    | some offset =>
      cases hl : str2int (arg cmd 5) with
      | none => simp [do_zquery, hs, ho, hl, out_err]
      | some limit =>
        cases hz : expect_zset db (arg cmd 1) with
        | none => simp [do_zquery, hs, ho, hl, hz, out_err]
        | some z =>
          by_cases hlim : limit ≤ 0
          · simp [do_zquery, hs, ho, hl, hz, hlim, out_arr]
          · rw [do_zquery_eq db cmd (a ++ b) score offset limit z hs ho hl hz hlim,
              do_zquery_eq db cmd b score offset limit z hs ho hl hz hlim]
            cases hoff : znode_offset z (zset_seekge z score (arg cmd 3)) offset with
            | none => simp
            | some p => simp

theorem do_request_append (db : DB) (cmd : List Str) (a b : Buffer) :
    do_request db cmd (a ++ b) = ((do_request db cmd b).1, a ++ (do_request db cmd b).2) := by
  rw [do_request, do_request]
  by_cases h1 : cmd.length = 2 ∧ arg cmd 0 = sGet
  · simp only [if_pos h1]; rw [do_get_append]
  · rw [if_neg h1, if_neg h1]
    by_cases h2 : cmd.length = 3 ∧ arg cmd 0 = sSet
    · simp only [if_pos h2]; rw [do_set_append]
    · rw [if_neg h2, if_neg h2]
      by_cases h3 : cmd.length = 2 ∧ arg cmd 0 = sDel
      · simp only [if_pos h3]; rw [do_del_append]
      · rw [if_neg h3, if_neg h3]
        by_cases h4 : cmd.length = 1 ∧ arg cmd 0 = sKeys
        · simp only [if_pos h4]; rw [do_keys_append]
        · rw [if_neg h4, if_neg h4]
          by_cases h5 : cmd.length = 4 ∧ arg cmd 0 = sZadd
          · simp only [if_pos h5]; rw [do_zadd_append]
          · rw [if_neg h5, if_neg h5]
            by_cases h6 : cmd.length = 3 ∧ arg cmd 0 = sZrem
            · simp only [if_pos h6]; rw [do_zrem_append]
            · rw [if_neg h6, if_neg h6]
              by_cases h7 : cmd.length = 3 ∧ arg cmd 0 = sZscore
              · simp only [if_pos h7]; rw [do_zscore_append]
              · rw [if_neg h7, if_neg h7]
                by_cases h8 : cmd.length = 6 ∧ arg cmd 0 = sZquery
                · simp only [if_pos h8]; rw [do_zquery_append]
                · rw [if_neg h8, if_neg h8]
                  simp [out_err]

/-! ### Wire-format round trips and the pipelining loop -/

theorem u32le_length (n : Nat) : (u32le n).length = 4 := by simp [u32le]

theorem read_u32_u32le (n : Nat) (r : List Nat) (h : n < 4294967296) :
    read_u32 (u32le n ++ r) = some (n, r) := by
  simp only [u32le, List.cons_append, List.nil_append, read_u32]
  have : n % 256 + 256 * (n / 256 % 256) + 65536 * (n / 65536 % 256) +
      16777216 * (n / 16777216 % 256) = n := by omega
  rw [this]

theorem decodeU32_u32le (n : Nat) (r : List Nat) (h : n < 4294967296) :
    decodeU32 (u32le n ++ r) = n := by
  simp only [u32le, List.cons_append, List.nil_append, decodeU32, List.getD]
  simp only [List.get?_cons_zero, List.get?_cons_succ, Option.getD_some]
  omega

theorem parse_req_loop_encode (cmd : List Str)
    (hlens : ∀ s ∈ cmd, s.length < 4294967296) :
    parse_req_loop cmd.length (cmd.foldr (fun s acc => u32le s.length ++ s ++ acc) []) =
      some cmd := by
  induction cmd with
  | nil => simp [parse_req_loop]
  | cons s cs ih =>
    have hs : s.length < 4294967296 := hlens s (by simp)
    rw [List.length_cons, List.foldr_cons, parse_req_loop, List.append_assoc,
      read_u32_u32le _ _ hs]
    dsimp only
    rw [read_str, if_neg (by simp)]
    dsimp only
    rw [List.take_left, List.drop_left]
    rw [ih (fun x hx => hlens x (List.mem_cons_of_mem _ hx))]

theorem parse_req_encode (cmd : List Str)
    (hargs : cmd.length ≤ k_max_args)
    (hlens : ∀ s ∈ cmd, s.length < 4294967296) :
    parse_req (encodeBody cmd) = some cmd := by
  have hn : cmd.length < 4294967296 := by
    have : k_max_args = 200000 := rfl
    omega
  rw [encodeBody, parse_req, read_u32_u32le _ _ hn]
  dsimp only
  rw [if_neg (by omega)]
  exact parse_req_loop_encode cmd hlens

theorem processRequests_eq (db : DB) (c : Conn) :
    processRequests db c =
      if hOk : (try_one_request db c).2 = true then
        processRequests (try_one_request db c).1.1 (try_one_request db c).1.2
      else (try_one_request db c).1 :=
  processRequests.eq_def db c

theorem try_one_request_frame (db : DB) (cmd : List Str) (rest : List Nat) (out0 : Buffer)
    (hw : WFReq cmd) :
    try_one_request db { incoming := frameOf cmd ++ rest, outgoing := out0, wantClose := false } =
      (((respond1 db cmd).1,
        { incoming := rest, outgoing := out0 ++ (respond1 db cmd).2, wantClose := false }),
       true) := by
  obtain ⟨hargs, hlens, hbody⟩ := hw
  have hkm : k_max_msg = 33554432 := rfl
  have hbllt : (encodeBody cmd).length < 4294967296 := by omega
  have hshape : frameOf cmd ++ rest = u32le (encodeBody cmd).length ++ (encodeBody cmd ++ rest) := by
    rw [frameOf, List.append_assoc]
  have hlen : (frameOf cmd ++ rest).length = 4 + (encodeBody cmd).length + rest.length := by
    simp [frameOf, u32le]
    omega
  have hdec : decodeU32 (frameOf cmd ++ rest) = (encodeBody cmd).length := by
    rw [hshape]
    exact decodeU32_u32le _ _ hbllt
  have hdrop4 : (frameOf cmd ++ rest).drop 4 = encodeBody cmd ++ rest := by
    rw [hshape]
    have h4 : (4 : Nat) = (u32le (encodeBody cmd).length).length := (u32le_length _).symm
    rw [h4, List.drop_left]
  have hbody2 : ((frameOf cmd ++ rest).drop 4).take (encodeBody cmd).length = encodeBody cmd := by
    rw [hdrop4, List.take_left]
  have hdropall : (frameOf cmd ++ rest).drop (4 + (encodeBody cmd).length) = rest := by
    have h1 : frameOf cmd ++ rest = (u32le (encodeBody cmd).length ++ encodeBody cmd) ++ rest := by
      rw [frameOf]
    have h2 : (4 + (encodeBody cmd).length) =
        (u32le (encodeBody cmd).length ++ encodeBody cmd).length := by
      simp [u32le]
      omega
    rw [h1, h2, List.drop_left]
  rw [try_one_request]
  simp only [hdec, hlen, hbody2, hdropall]
  rw [if_neg (by omega), if_neg (by omega), if_neg (by omega),
    parse_req_encode cmd hargs hlens]
  dsimp only [response_begin]
  rw [do_request_append db cmd out0 [Tok.u32 0], response_end_shift]
  rfl

/-- C6: a connection whose incoming buffer holds any number of complete
concatenated well-formed frames processes all of them in one pass of the
`while (try_one_request)` loop, appending the framed responses to the
outgoing buffer in arrival order and leaving the incoming buffer empty. -/
theorem c6_pipelined_batch (cmds : List (List Str)) :
    ∀ (db : DB) (out0 : Buffer), (∀ cmd ∈ cmds, WFReq cmd) →
    processRequests db { incoming := framesOf cmds, outgoing := out0, wantClose := false } =
      ((runCmds db cmds).1,
       { incoming := [], outgoing := out0 ++ (runCmds db cmds).2, wantClose := false }) := by
  induction cmds with
  | nil =>
    intro db out0 _
    rw [processRequests_eq]
    have h : try_one_request db { incoming := framesOf [], outgoing := out0, wantClose := false } =
        ((db, { incoming := framesOf [], outgoing := out0, wantClose := false }), false) := by
      rw [try_one_request, if_pos (by simp [framesOf])]
    rw [h]
    simp [runCmds, framesOf]
  | cons cmd rest ih =>
    intro db out0 hw
    rw [processRequests_eq]
    have hstep := try_one_request_frame db cmd (framesOf rest) out0 (hw cmd (by simp))
    have hfr : framesOf (cmd :: rest) = frameOf cmd ++ framesOf rest := rfl
    rw [hfr, hstep]
    simp only [dif_pos]
    rw [ih _ _ (fun c hc => hw c (List.mem_cons_of_mem _ hc))]
    have hrun : runCmds db (cmd :: rest) =
        ((runCmds (respond1 db cmd).1 rest).1,
         (respond1 db cmd).2 ++ (runCmds (respond1 db cmd).1 rest).2) := by
      rw [runCmds]
    rw [hrun]
    simp [List.append_assoc]

theorem c6_pipelined_batch_witness :
    (∀ cmd ∈ [[sSet, [97], [98]], [sGet, [97]], [sDel, [97]]], WFReq cmd) ∧
    processRequests []
      { incoming := framesOf [[sSet, [97], [98]], [sGet, [97]], [sDel, [97]]],
        outgoing := [], wantClose := false } =
      ((runCmds [] [[sSet, [97], [98]], [sGet, [97]], [sDel, [97]]]).1,
       { incoming := [],
         outgoing := [] ++ (runCmds [] [[sSet, [97], [98]], [sGet, [97]], [sDel, [97]]]).2,
         wantClose := false }) :=
  ⟨by decide,
   c6_pipelined_batch [[sSet, [97], [98]], [sGet, [97]], [sDel, [97]]] [] [] (by decide)⟩

/-! ### C1 and C10: zquery emission -/

/-- C1 counterexample: on the sorted ZSET `{a: 1, b: 2}`, the query
`zquery k 0 "" 0 2` (limit 2, both members available) emits only ONE pair —
the loop counts two output entries per member against the limit — while the
claim's "up to L matched (name, score) pairs" demands two. -/
theorem c1_counterexample :
    (ZSorted [([97], DVal.fin 1 1), ([98], DVal.fin 2 1)] ∧
     str2dbl (strBytes "0") = some (DVal.fin 0 1) ∧
     str2int (strBytes "2") = some 2) ∧
    do_zquery [([107], Val.zset [([97], DVal.fin 1 1), ([98], DVal.fin 2 1)])]
        [sZquery, [107], strBytes "0", [], strBytes "0", strBytes "2"] [] ≠
      spec_zquery_pairs [([97], DVal.fin 1 1), ([98], DVal.fin 2 1)]
        (DVal.fin 0 1) [] 0 2 := by
  refine ⟨by decide, by decide⟩

/-- C1 (amended): a zquery on an existing sorted ZSET key with parsing
numeric arguments and positive limit `L` positions via seek-≥(score, name),
advances by `offset`, and emits `min(available, ceil(L / 2))` matched
members — the loop charges two output entries per member against `L` — in
ascending (score, name) order, each as a STR name immediately followed by a
DBL score; when seek/offset leaves the tree the reply is the empty array. -/
theorem c1_zquery_emission (db : DB) (k s nm o l : Str) (out : Buffer)
    (score : DVal) (offset limit : Int) (z : ZSet)
    (hs : str2dbl s = some score)
    (ho : str2int o = some offset)
    (hl : str2int l = some limit)
    (hz : dbGet db k = some (Val.zset z))
    (hsorted : ZSorted z)
    (hsize : 2 * z.length < 4294967296)
    (hpos : 0 < limit) :
    (znode_offset z (zset_seekge z score nm) offset = none →
      do_zquery db [sZquery, k, s, nm, o, l] out = out ++ [Tok.u8 5, Tok.u32 0]) ∧
    (∀ p, znode_offset z (zset_seekge z score nm) offset = some p →
      do_zquery db [sZquery, k, s, nm, o, l] out =
        out ++ Tok.u8 5 :: Tok.u32 (2 * min (z.length - p) ((limit.toNat + 1) / 2)) ::
          emitPairs ((z.drop p).take ((limit.toNat + 1) / 2)) ∧
      ZSorted ((z.drop p).take ((limit.toNat + 1) / 2))) := by
  have hez : expect_zset db k = some z := by rw [expect_zset, hz]
  have heq := do_zquery_eq db [sZquery, k, s, nm, o, l] out score offset limit z hs ho hl hez
    (by omega)
  have harg : arg [sZquery, k, s, nm, o, l] 3 = nm := rfl
  rw [harg] at heq
  constructor
  · intro hn
    rw [heq, hn]
  · intro p hp
    rw [heq, hp]
    dsimp only
    have hmin : min (z.length - p) ((limit.toNat + 1) / 2) ≤ z.length := by omega
    rw [Nat.mod_eq_of_lt (by omega)]
    refine ⟨rfl, ?_⟩
    exact List.Pairwise.sublist
      (List.Sublist.trans (List.take_sublist _ _) (List.drop_sublist _ _)) hsorted

theorem c1_zquery_emission_witness :
    (str2dbl (strBytes "0") = some (DVal.fin 0 1) ∧ str2int (strBytes "0") = some 0 ∧
     str2int (strBytes "10") = some 10 ∧
     dbGet [([107], Val.zset [([97], DVal.fin 1 1), ([98], DVal.fin 2 1)])] [107] =
       some (Val.zset [([97], DVal.fin 1 1), ([98], DVal.fin 2 1)]) ∧
     ZSorted [([97], DVal.fin 1 1), ([98], DVal.fin 2 1)] ∧
     2 * ([([97], DVal.fin 1 1), ([98], DVal.fin 2 1)] : ZSet).length < 4294967296 ∧
     (0 : Int) < 10 ∧
     znode_offset [([97], DVal.fin 1 1), ([98], DVal.fin 2 1)]
       (zset_seekge [([97], DVal.fin 1 1), ([98], DVal.fin 2 1)] (DVal.fin 0 1) []) 0 =
         some 0) ∧
    (do_zquery [([107], Val.zset [([97], DVal.fin 1 1), ([98], DVal.fin 2 1)])]
        [sZquery, [107], strBytes "0", [], strBytes "0", strBytes "10"] [] =
      [] ++ Tok.u8 5 ::
        Tok.u32 (2 * min (([([97], DVal.fin 1 1), ([98], DVal.fin 2 1)] : ZSet).length - 0)
          (((10 : Int).toNat + 1) / 2)) ::
        emitPairs ((([([97], DVal.fin 1 1), ([98], DVal.fin 2 1)] : ZSet).drop 0).take
          (((10 : Int).toNat + 1) / 2)) ∧
     ZSorted ((([([97], DVal.fin 1 1), ([98], DVal.fin 2 1)] : ZSet).drop 0).take
       (((10 : Int).toNat + 1) / 2))) :=
  ⟨by decide,
   (c1_zquery_emission [([107], Val.zset [([97], DVal.fin 1 1), ([98], DVal.fin 2 1)])]
     [107] (strBytes "0") [] (strBytes "0") (strBytes "10") []
     (DVal.fin 0 1) 0 10 [([97], DVal.fin 1 1), ([98], DVal.fin 2 1)]
     (by decide) (by decide) (by decide) (by decide) (by decide) (by decide)
     (by decide)).2 0 (by decide)⟩

/-- C10: every zquery reply that is an array consists of the ARR tag, an
element count that is exactly twice the number of emitted members, and the
members' tokens — each one STR name immediately followed by one DBL score;
no member is ever emitted half-way. -/
theorem c10_array_shape (db : DB) (cmd : List Str)
    (hsmall : ∀ e ∈ db, ValSmall e.2)
    (harr : (do_zquery db cmd []).head? = some (Tok.u8 5)) :
    ∃ ps : List (Str × DVal),
      do_zquery db cmd [] = Tok.u8 5 :: Tok.u32 (2 * ps.length) :: emitPairs ps := by
  cases hs : str2dbl (arg cmd 2) with
  | none =>
    rw [do_zquery, hs] at harr
    simp [out_err] at harr
  | some score =>
    cases ho : str2int (arg cmd 4) with
    | none =>
      rw [do_zquery, hs, ho] at harr
      simp [out_err] at harr
    | some offset =>
      cases hl : str2int (arg cmd 5) with
      | none =>
        rw [do_zquery, hs, ho, hl] at harr
        simp [out_err] at harr
      | some limit =>
        cases hz : expect_zset db (arg cmd 1) with
        | none =>
          rw [do_zquery, hs, ho, hl, hz] at harr
          simp [out_err] at harr
        | some z =>
          by_cases hlim : limit ≤ 0
          · refine ⟨[], ?_⟩
            rw [do_zquery, hs, ho, hl, hz]
            dsimp only
            rw [if_pos hlim]
            simp [out_arr, emitPairs]
          · have heq := do_zquery_eq db cmd [] score offset limit z hs ho hl hz hlim
            have hzb : 2 * z.length < 4294967296 := by
              rw [expect_zset] at hz
              cases hget : dbGet db (arg cmd 1) with
              | none =>
                rw [hget] at hz
                simp at hz
                subst hz
                simp
              | some v =>
                cases v with
                | str s' =>
                  rw [hget] at hz
                  simp at hz
                | zset z' =>
                  rw [hget] at hz
                  simp at hz
                  subst hz
                  have hv := hsmall _ (dbGet_mem _ _ _ hget)
                  exact hv
            cases hoff : znode_offset z (zset_seekge z score (arg cmd 3)) offset with
            | none =>
              refine ⟨[], ?_⟩
              rw [heq, hoff]
              simp [emitPairs]
            | some p =>
              refine ⟨(z.drop p).take ((limit.toNat + 1) / 2), ?_⟩
              rw [heq, hoff]
              dsimp only
              rw [List.nil_append, List.length_take, List.length_drop, Nat.min_comm]
              rw [Nat.mod_eq_of_lt (by omega)]

theorem c10_array_shape_witness :
    ((∀ e ∈ [([107], Val.zset [([97], DVal.fin 1 1)])], ValSmall e.2) ∧
     (do_zquery [([107], Val.zset [([97], DVal.fin 1 1)])]
        [sZquery, [107], strBytes "0", [], strBytes "0", strBytes "7"] []).head? =
       some (Tok.u8 5)) ∧
    ∃ ps : List (Str × DVal),
      do_zquery [([107], Val.zset [([97], DVal.fin 1 1)])]
          [sZquery, [107], strBytes "0", [], strBytes "0", strBytes "7"] [] =
        Tok.u8 5 :: Tok.u32 (2 * ps.length) :: emitPairs ps :=
  ⟨by decide,
   c10_array_shape [([107], Val.zset [([97], DVal.fin 1 1)])]
     [sZquery, [107], strBytes "0", [], strBytes "0", strBytes "7"]
     (by decide) (by decide)⟩

end MyRedis
